import Mathlib

/-!
Shallow embedding of the token-authentication core of the taskhub backend:
the JWT utility layer (`src/utils/jwt.utils.ts`), the issuance service with
its in-memory device→token registry (`AuthService`), and the request
authorization gate (`JwtAuthGuard`).

The external `jsonwebtoken` library is modelled by a concrete executable
codec: a signed token is the string `"JWT.<payload>.<signature>"` where the
payload segment carries the escaped device id and unary-coded `iat`/`exp`
timestamps, and the signature segment is an injective function of the
payload segment and the secret (an ideal MAC: it matches exactly when the
same secret is supplied).  Wall-clock time is passed explicitly as a `Nat`
of Unix-epoch seconds; duration expressions such as the default `'1h'` are
modelled by their value in seconds (3600).
-/

/-- The whitespace characters recognised both by JavaScript's
`String.prototype.trim` and by the regex class `\s` (restricted to the
ASCII range relevant here). -/
def jsWs (c : Char) : Bool :=
  c = ' ' || c = '\t' || c = '\n' || c = '\r' || c = '\x0b' || c = '\x0c'

/-- JavaScript regex line terminators, which the regex `.` does not match. -/
def isLineTerm (c : Char) : Bool :=
  c = '\n' || c = '\r'

/-- Model of JavaScript `String.prototype.trim`. -/
def jsTrim (s : String) : String :=
  ⟨((s.data.dropWhile jsWs).reverse.dropWhile jsWs).reverse⟩

/-- Model of JavaScript `String.prototype.split` with a one-character
separator, e.g. `token.split('.')`: like JS, splitting the empty string
yields `[""]` and adjacent separators yield empty segments. -/
def splitOnC (sep : Char) : List Char → List (List Char)
  | [] => [[]]
  | c :: cs =>
    let r := splitOnC sep cs
    if c = sep then [] :: r else (c :: r.headD []) :: r.tail

/-- Injective escaping used by the token payload serialisation: the
characters `'.'`, `'_'` and `'\'` (which act as delimiters in the token
wire format) are replaced by two-character escape sequences, so the escaped
text contains neither `'.'` nor `'_'`.  This stands in for the base64url
encoding of the real wire format. -/
def escape : List Char → List Char
  | [] => []
  | c :: cs =>
    if c = '\\' then '\\' :: 'b' :: escape cs
    else if c = '.' then '\\' :: 'd' :: escape cs
    else if c = '_' then '\\' :: 'u' :: escape cs
    else c :: escape cs

/-- Decoder inverting `escape`; `none` on ill-formed escape sequences. -/
def unescape : List Char → Option (List Char)
  | [] => some []
  | c :: cs =>
    if c = '\\' then
      match cs with
      | [] => none
      | e :: cs2 =>
        if e = 'b' then (unescape cs2).map (fun l => '\\' :: l)
        else if e = 'd' then (unescape cs2).map (fun l => '.' :: l)
        else if e = 'u' then (unescape cs2).map (fun l => '_' :: l)
        else none
    else (unescape cs).map (fun l => c :: l)

/-- Unary numeral used for the `iat`/`exp` fields of the payload segment. -/
def unary (n : Nat) : List Char :=
  List.replicate n '1'

/-- Decoder inverting `unary`. -/
def decUnary (l : List Char) : Option Nat :=
  if l.all (fun c => c = '1') then some l.length else none

/-- The decoded JWT payload, as in the `JwtPayload` interface of
`jwt.utils.ts` (`iat`/`exp` are always present on verified tokens). -/
structure JwtPayload where
  deviceId : String
  iat : Nat
  exp : Nat
  deriving DecidableEq

/-- The constant header segment of the modelled wire format. -/
def jwtHeader : List Char :=
  ['J', 'W', 'T']

/-- Serialisation of a payload into the middle token segment. -/
def payloadSeg (p : JwtPayload) : List Char :=
  escape p.deviceId.data ++ '_' :: (unary p.iat ++ '_' :: unary p.exp)

/-- The signature segment: an ideal MAC over the serialised payload keyed
by the secret — it is reproducible exactly by a holder of the same
secret. -/
def sigSeg (pl : List Char) (secret : String) : List Char :=
  pl ++ '_' :: escape secret.data

/-- Model of `jwt.sign(payload, secret, {expiresIn})` after the library has
stamped `iat = now` and `exp = now + ttl` into the payload `p`. -/
def jwtSign (p : JwtPayload) (secret : String) : String :=
  ⟨jwtHeader ++ '.' :: payloadSeg p ++ '.' :: sigSeg (payloadSeg p) secret⟩

/-- Deserialisation of the middle token segment. -/
def decodePayloadSeg (pl : List Char) : Option JwtPayload :=
  match splitOnC '_' pl with
  | [d, i, e] =>
    match unescape d, decUnary i, decUnary e with
    | some dc, some iat, some exp => some ⟨⟨dc⟩, iat, exp⟩
    | _, _, _ => none
  | _ => none

/-- The error classes thrown by the `jsonwebtoken` library that
`JwtUtils.verifyToken` discriminates between: `TokenExpiredError`,
`JsonWebTokenError` (bad structure or signature), and any other thrown
error (the `else` branch of the catch). -/
inductive JwtError where
  | tokenExpiredError
  | jsonWebTokenError
  | otherError
  deriving DecidableEq

/-- Model of `jwt.verify(token, secret)` at wall-clock second `now`: split
the token into three dot segments, check the header, check the signature
against the payload segment and the supplied secret, decode the payload,
and finally reject with `TokenExpiredError` when `now ≥ exp`. -/
def jwtVerify (token secret : String) (now : Nat) : Except JwtError JwtPayload :=
  match splitOnC '.' token.data with
  | [h, pl, sg] =>
    if h = jwtHeader then
      if sg = sigSeg pl secret then
        match decodePayloadSeg pl with
        | some p => if p.exp ≤ now then .error .tokenExpiredError else .ok p
        | none => .error .jsonWebTokenError
      else .error .jsonWebTokenError
    else .error .jsonWebTokenError
  | _ => .error .jsonWebTokenError

namespace JwtUtils

/-- `JwtUtils.generateToken(deviceId, secret, expiresIn)`: signs
`{deviceId}` with the secret; the library stamps `iat = now` and
`exp = now + expiresIn`.  `expiresIn` is the ttl in seconds (the source's
default duration expression `'1h'` is 3600). -/
def generateToken (deviceId secret : String) (expiresIn now : Nat) : String :=
  jwtSign ⟨deviceId, now, now + expiresIn⟩ secret

/-- The error-message mapping of the catch block of
`JwtUtils.verifyToken`: `TokenExpiredError` ↦ `'Token has expired'`,
`JsonWebTokenError` ↦ `'Invalid token'`, anything else ↦
`'Token verification failed'`. -/
def mapVerifyError : JwtError → String
  | .tokenExpiredError => "Token has expired"
  | .jsonWebTokenError => "Invalid token"
  | .otherError => "Token verification failed"

/-- `JwtUtils.verifyToken(token, secret)`: a successful verification
returns the payload, and a library error is rethrown as `Error(msg)` with
the message given by `mapVerifyError`. -/
def verifyToken (token secret : String) (now : Nat) : Except String JwtPayload :=
  match jwtVerify token secret now with
  | .ok p => .ok p
  | .error e => .error (mapVerifyError e)

/-- The capture group of the regex `/^Bearer\s+(.+)$/i` applied to the
characters after the 6-character `Bearer` head: `\s+` greedily consumes
the leading whitespace run; `(.+)$` then needs a non-empty remainder free
of line terminators; when the remainder after all whitespace is empty the
engine backtracks one character, capturing just the final whitespace
character (if it is not a line terminator and at least one whitespace
character remains consumed). -/
def bearerCapture (r : List Char) : Option (List Char) :=
  if r.takeWhile jsWs = [] then none
  else
    match r.dropWhile jsWs with
    | [] =>
      match r.getLast? with
      | none => none
      | some last =>
        if r.length < 2 then none
        else if isLineTerm last then none
        else some [last]
    | c :: cs =>
      if (c :: cs).all (fun ch => !isLineTerm ch) then some (c :: cs) else none

/-- `JwtUtils.extractTokenFromHeader(authHeader)`: `null` for an absent or
empty (falsy) header; otherwise the capture of `/^Bearer\s+(.+)$/i` when
the regex matches, else the trimmed whole header (or `null` when the trim
is empty). -/
def extractTokenFromHeader (authHeader : Option String) : Option String :=
  match authHeader with
  | none => none
  | some h =>
    if h = "" then none
    else if (h.data.take 6).map Char.toLower = "bearer".data then
      match bearerCapture (h.data.drop 6) with
      | some cap => some ⟨cap⟩
      | none => if jsTrim h = "" then none else some (jsTrim h)
    else if jsTrim h = "" then none else some (jsTrim h)

/-- `JwtUtils.isValidTokenFormat(token)`: false for a falsy token,
otherwise `token.split('.')` must have exactly three non-empty parts. -/
def isValidTokenFormat (token : Option String) : Bool :=
  match token with
  | none => false
  | some t =>
    if t = "" then false
    else
      let parts := splitOnC '.' t.data
      parts.length == 3 && parts.all (fun part => part.length > 0)

end JwtUtils

/-- The process-wide configuration read through `ConfigService`:
`JWT_SECRET` (`none` models an unset variable) and `JWT_EXPIRES_IN`
(already parsed to seconds; `none` models unset-or-empty, for which the
service substitutes the `'1h'` default). -/
structure AuthConfig where
  jwtSecret : Option String
  jwtExpiresIn : Option Nat

/-- The `deviceTokenMap : Map<string, string>` of `AuthService`, as an
insertion-ordered association list. -/
abbrev Registry := List (String × String)

/-- `Map.prototype.get` (as `Option`). -/
def mapGet : Registry → String → Option String
  | [], _ => none
  | p :: rest, k => if p.1 = k then some p.2 else mapGet rest k

/-- `Map.prototype.set`: update in place when the key is present
(insertion order preserved), append otherwise. -/
def mapSet : Registry → String → String → Registry
  | [], k, v => [(k, v)]
  | p :: rest, k, v => if p.1 = k then (k, v) :: rest else p :: mapSet rest k v

/-- `Map.prototype.delete`. -/
def mapDelete (m : Registry) (k : String) : Registry :=
  m.filter (fun p => p.1 != k)

/-- The `TokenResponse` returned by `AuthService.generateToken`. -/
structure TokenResponse where
  token : String
  deviceId : String
  expiresIn : Nat
  issuedAt : Nat
  deriving DecidableEq

/-- One run of `AuthService.generateToken`: the returned value or the
thrown `Error` message, the registry state afterwards, and whether the
codec (`JwtUtils.generateToken`) and the registry (`Map.set`) were
invoked during the run. -/
structure IssueRun where
  result : Except String TokenResponse
  registry : Registry
  codecInvoked : Bool
  registryInvoked : Bool

namespace AuthService

/-- `AuthService.generateToken(deviceId)` against configuration `cfg`,
registry state `m`, at wall-clock second `now`.  Mirrors the source: the
falsy/whitespace check on `deviceId`, the secret-presence check (an empty
`JWT_SECRET` is falsy too), then encode, register under the trimmed id,
and respond. -/
def generateToken (cfg : AuthConfig) (m : Registry) (deviceId : String) (now : Nat) : IssueRun :=
  if jsTrim deviceId = "" then
    ⟨.error "Device ID is required", m, false, false⟩
  else
    match cfg.jwtSecret with
    | none => ⟨.error "JWT secret is not configured", m, false, false⟩
    | some secret =>
      if secret = "" then ⟨.error "JWT secret is not configured", m, false, false⟩
      else
        let expiresIn := cfg.jwtExpiresIn.getD 3600
        let token := JwtUtils.generateToken (jsTrim deviceId) secret expiresIn now
        ⟨.ok ⟨token, jsTrim deviceId, expiresIn, now⟩, mapSet m (jsTrim deviceId) token, true, true⟩

/-- `AuthService.getStoredToken(deviceId)`: the stored token or `null`;
the source's `|| null` turns a falsy (empty-string) stored token into
`null` as well.  Uses the given `deviceId` verbatim. -/
def getStoredToken (m : Registry) (deviceId : String) : Option String :=
  match mapGet m deviceId with
  | some t => if t = "" then none else some t
  | none => none

/-- `AuthService.revokeToken(deviceId)`: idempotent `Map.delete` on the
verbatim `deviceId`. -/
def revokeToken (m : Registry) (deviceId : String) : Registry :=
  mapDelete m deviceId

/-- `AuthService.isValidStoredToken(deviceId, token)`: strict equality of
the stored token (possibly `undefined`) with the given token. -/
def isValidStoredToken (m : Registry) (deviceId token : String) : Bool :=
  mapGet m deviceId == some token

end AuthService

/-- One run of `JwtAuthGuard.canActivate`: `ok payload` models returning
`true` with `request.jwtPayload = payload` attached; `error msg` models
throwing `UnauthorizedException(msg)`.  `decodeInvoked` records whether
`JwtUtils.verifyToken` was called during the run. -/
structure GuardRun where
  outcome : Except String JwtPayload
  decodeInvoked : Bool

namespace JwtAuthGuard

/-- `JwtAuthGuard.canActivate` on a request whose authorization header is
`authHeader`, against configuration `cfg`, at wall-clock second `now`.
Mirrors the source order: extract, structural format check, secret
presence, verify; the catch block rethrows the verification error message
inside a fresh `UnauthorizedException`. -/
def canActivate (cfg : AuthConfig) (authHeader : Option String) (now : Nat) : GuardRun :=
  match JwtUtils.extractTokenFromHeader authHeader with
  | none => ⟨.error "No authorization token provided", false⟩
  | some token =>
    if JwtUtils.isValidTokenFormat (some token) then
      match cfg.jwtSecret with
      | none => ⟨.error "JWT configuration error", false⟩
      | some s =>
        if s = "" then ⟨.error "JWT configuration error", false⟩
        else
          match JwtUtils.verifyToken token s now with
          | .ok p => ⟨.ok p, true⟩
          | .error msg => ⟨.error msg, true⟩
    else ⟨.error "Invalid token format", false⟩

end JwtAuthGuard

/-! ### Basic lemmas about the serialisation helpers -/

theorem splitOnC_ne_nil (sep : Char) (l : List Char) : splitOnC sep l ≠ [] := by
  induction l with
  | nil => simp [splitOnC]
  | cons c cs ih =>
    simp only [splitOnC]
    split <;> simp

theorem splitOnC_no_sep {sep : Char} {l : List Char} (h : ∀ c ∈ l, c ≠ sep) :
    splitOnC sep l = [l] := by
  induction l with
  | nil => rfl
  | cons c cs ih =>
    have hc : c ≠ sep := h c (by simp)
    have ih2 := ih (fun x hx => h x (by simp [hx]))
    simp [splitOnC, hc, ih2]

theorem splitOnC_append {sep : Char} {a r : List Char} (h : ∀ c ∈ a, c ≠ sep) :
    splitOnC sep (a ++ sep :: r) = a :: splitOnC sep r := by
  induction a with
  | nil => simp [splitOnC]
  | cons c cs ih =>
    have hc : c ≠ sep := h c (by simp)
    have ih2 := ih (fun x hx => h x (by simp [hx]))
    simp [splitOnC, hc, ih2]

theorem unescape_cons_of_ne {c : Char} (cs : List Char) (h1 : c ≠ '\\') :
    unescape (c :: cs) = (unescape cs).map (fun l => c :: l) := by
  rw [unescape.eq_def]
  simp [h1]

theorem unescape_escape (l : List Char) : unescape (escape l) = some l := by
  induction l with
  | nil => rfl
  | cons c cs ih =>
    by_cases h1 : c = '\\'
    · subst h1; simp [escape, unescape, ih]
    · by_cases h2 : c = '.'
      · subst h2; simp [escape, unescape, ih]
      · by_cases h3 : c = '_'
        · subst h3; simp [escape, unescape, ih]
        · simp [escape, h1, h2, h3, unescape_cons_of_ne _ h1, ih]

theorem escape_inj {a b : List Char} (h : escape a = escape b) : a = b := by
  have h2 : some a = some b := by
    rw [← unescape_escape a, h, unescape_escape b]
  exact Option.some.inj h2

theorem mem_escape {l : List Char} : ∀ c ∈ escape l, c ≠ '.' ∧ c ≠ '_' := by
  induction l with
  | nil => intro c hc; simp [escape] at hc
  | cons x xs ih =>
    simp only [escape]
    split_ifs with h1 h2 h3
    · intro c hc
      rcases List.mem_cons.mp hc with rfl | hc
      · exact ⟨by decide, by decide⟩
      rcases List.mem_cons.mp hc with rfl | hc
      · exact ⟨by decide, by decide⟩
      exact ih c hc
    · intro c hc
      rcases List.mem_cons.mp hc with rfl | hc
      · exact ⟨by decide, by decide⟩
      rcases List.mem_cons.mp hc with rfl | hc
      · exact ⟨by decide, by decide⟩
      exact ih c hc
    · intro c hc
      rcases List.mem_cons.mp hc with rfl | hc
      · exact ⟨by decide, by decide⟩
      rcases List.mem_cons.mp hc with rfl | hc
      · exact ⟨by decide, by decide⟩
      exact ih c hc
    · intro c hc
      rcases List.mem_cons.mp hc with rfl | hc
      · exact ⟨h2, h3⟩
      exact ih c hc

theorem mem_unary {n : Nat} : ∀ c ∈ unary n, c = '1' := by
  intro c hc
  simpa [unary] using (List.eq_of_mem_replicate hc)

theorem decUnary_unary (n : Nat) : decUnary (unary n) = some n := by
  have hall : (unary n).all (fun c => c = '1') = true := by
    simp only [List.all_eq_true, decide_eq_true_eq]
    exact mem_unary
  simp [decUnary, hall, unary]

theorem mem_payloadSeg_ne_dot {p : JwtPayload} : ∀ c ∈ payloadSeg p, c ≠ '.' := by
  intro c hc
  simp only [payloadSeg, List.mem_append, List.mem_cons] at hc
  rcases hc with hc | rfl | hc | rfl | hc
  · exact (mem_escape c hc).1
  · decide
  · rw [mem_unary c hc]; decide
  · decide
  · rw [mem_unary c hc]; decide

theorem mem_sigSeg_ne_dot {p : JwtPayload} {s : String} :
    ∀ c ∈ sigSeg (payloadSeg p) s, c ≠ '.' := by
  intro c hc
  simp only [sigSeg, List.mem_append, List.mem_cons] at hc
  rcases hc with hc | rfl | hc
  · exact mem_payloadSeg_ne_dot c hc
  · decide
  · exact (mem_escape c hc).1

theorem decodePayloadSeg_payloadSeg (p : JwtPayload) :
    decodePayloadSeg (payloadSeg p) = some p := by
  have h1 : ∀ c ∈ escape p.deviceId.data, c ≠ '_' := fun c hc => (mem_escape c hc).2
  have h2 : ∀ c ∈ unary p.iat, c ≠ '_' := by
    intro c hc; rw [mem_unary c hc]; decide
  have h3 : ∀ c ∈ unary p.exp, c ≠ '_' := by
    intro c hc; rw [mem_unary c hc]; decide
  have hsplit : splitOnC '_' (payloadSeg p) =
      [escape p.deviceId.data, unary p.iat, unary p.exp] := by
    unfold payloadSeg
    rw [splitOnC_append h1, splitOnC_append h2, splitOnC_no_sep h3]
  simp [decodePayloadSeg, hsplit, unescape_escape, decUnary_unary]

theorem splitOnC_jwtSign (p : JwtPayload) (s : String) :
    splitOnC '.' (jwtSign p s).data =
      [jwtHeader, payloadSeg p, sigSeg (payloadSeg p) s] := by
  have hh : ∀ c ∈ jwtHeader, c ≠ '.' := by decide
  have hp : ∀ c ∈ payloadSeg p, c ≠ '.' := mem_payloadSeg_ne_dot
  have hs : ∀ c ∈ sigSeg (payloadSeg p) s, c ≠ '.' := mem_sigSeg_ne_dot
  show splitOnC '.' (jwtHeader ++ '.' :: (payloadSeg p ++ '.' :: sigSeg (payloadSeg p) s)) = _
  rw [splitOnC_append hh, splitOnC_append hp, splitOnC_no_sep hs]

/-- Verifying a signed token with the signing secret: expired exactly when
`now ≥ exp`, otherwise the original payload is returned. -/
theorem jwtVerify_jwtSign (p : JwtPayload) (s : String) (now : Nat) :
    jwtVerify (jwtSign p s) s now =
      if p.exp ≤ now then .error .tokenExpiredError else .ok p := by
  simp [jwtVerify, splitOnC_jwtSign, decodePayloadSeg_payloadSeg]

/-- Verifying a signed token with a different secret always fails with
`JsonWebTokenError` (invalid signature). -/
theorem jwtVerify_jwtSign_wrong (p : JwtPayload) (s s2 : String) (now : Nat)
    (h : s2 ≠ s) :
    jwtVerify (jwtSign p s) s2 now = .error .jsonWebTokenError := by
  have hsig : sigSeg (payloadSeg p) s ≠ sigSeg (payloadSeg p) s2 := by
    intro he
    apply h
    have := List.append_cancel_left he
    have hesc : escape s.data = escape s2.data := by
      simpa using this
    have hdata : s.data = s2.data := escape_inj hesc
    exact congrArg String.mk hdata.symm
  simp [jwtVerify, splitOnC_jwtSign, hsig]

/-- A signed token is never the empty string. -/
theorem jwtSign_ne_empty (p : JwtPayload) (s : String) : jwtSign p s ≠ "" := by
  intro h
  have := congrArg String.data h
  simp [jwtSign, jwtHeader] at this

/-! ### Lemmas about the registry `Map` operations -/

theorem mapGet_mapSet_self (m : Registry) (k v : String) :
    mapGet (mapSet m k v) k = some v := by
  induction m with
  | nil => simp [mapSet, mapGet]
  | cons p rest ih =>
    by_cases h : p.1 = k
    · simp [mapSet, h, mapGet]
    · simp [mapSet, h, mapGet, ih]

theorem mapGet_mapSet_ne (m : Registry) (k v k2 : String) (h : k2 ≠ k) :
    mapGet (mapSet m k v) k2 = mapGet m k2 := by
  induction m with
  | nil => simp [mapSet, mapGet, Ne.symm h]
  | cons p rest ih =>
    by_cases hp : p.1 = k
    · simp [mapSet, hp, mapGet, Ne.symm h]
    · simp only [mapSet, hp, if_neg, mapGet]
      split
      · rfl
      · exact ih

theorem mapGet_mapDelete_ne (m : Registry) (k k2 : String) (h : k2 ≠ k) :
    mapGet (mapDelete m k) k2 = mapGet m k2 := by
  induction m with
  | nil => rfl
  | cons p rest ih =>
    by_cases hp : p.1 = k
    · simpa [mapDelete, List.filter_cons, hp, mapGet, Ne.symm h] using ih
    · simp only [mapDelete, List.filter_cons] at ih ⊢
      simp only [bne_iff_ne, ne_eq, hp, not_false_eq_true, if_pos, if_true, mapGet]
      split
      · rfl
      · exact ih

/-! ### Lemmas about header extraction -/

theorem isLineTerm_imp_jsWs {c : Char} (h : isLineTerm c = true) : jsWs c = true := by
  simp only [isLineTerm, Bool.or_eq_true, decide_eq_true_eq, or_assoc] at h
  rcases h with rfl | rfl <;> rfl

theorem jsWs_false_lineTerm {c : Char} (h : jsWs c = false) : isLineTerm c = false := by
  cases h3 : isLineTerm c
  · rfl
  · rw [isLineTerm_imp_jsWs h3] at h; cases h

theorem jsWs_toLower_ne_b {c : Char} (h : jsWs c = true) : Char.toLower c ≠ 'b' := by
  simp only [jsWs, Bool.or_eq_true, decide_eq_true_eq, or_assoc] at h
  rcases h with rfl | rfl | rfl | rfl | rfl | rfl <;> decide

theorem bearerCapture_of_clean (c0 : Char) (cs0 : List Char)
    (hw : ∀ c ∈ c0 :: cs0, jsWs c = false) :
    JwtUtils.bearerCapture (' ' :: c0 :: cs0) = some (c0 :: cs0) := by
  have hc0 : jsWs c0 = false := hw c0 (by simp)
  have htermc : isLineTerm c0 = false := jsWs_false_lineTerm hc0
  have hterml : ∀ x ∈ cs0, isLineTerm x = false := fun x hx =>
    jsWs_false_lineTerm (hw x (by simp [hx]))
  simp [JwtUtils.bearerCapture, List.takeWhile_cons, List.dropWhile_cons, hc0,
    htermc, hterml, show jsWs ' ' = true from rfl]
  exact hterml

/-- The positive Bearer case of the extractor: a `"Bearer "` prefix
followed by a non-empty whitespace-free token is stripped. -/
theorem extractTokenFromHeader_bearer (t : String) (ht : t ≠ "")
    (hw : ∀ c ∈ t.data, jsWs c = false) :
    JwtUtils.extractTokenFromHeader (some ("Bearer " ++ t)) = some t := by
  obtain ⟨c0, cs0, hcs⟩ : ∃ c0 cs0, t.data = c0 :: cs0 := by
    cases hd : t.data with
    | nil => exact absurd (String.ext hd) ht
    | cons c cs => exact ⟨c, cs, rfl⟩
  have hdata : ("Bearer " ++ t).data = ['B', 'e', 'a', 'r', 'e', 'r'] ++ (' ' :: t.data) := by
    rw [String.data_append]; rfl
  have hne : "Bearer " ++ t ≠ "" := by
    intro h0
    have h1 := congrArg String.data h0
    rw [hdata] at h1
    simp at h1
  have htake : (("Bearer " ++ t).data.take 6).map Char.toLower = "bearer".data := by
    rw [hdata, List.take_left' (by rfl)]
    decide
  have hcap : JwtUtils.bearerCapture (' ' :: t.data) = some t.data := by
    rw [hcs]
    exact bearerCapture_of_clean c0 cs0 (by rw [← hcs]; exact hw)
  have hdrop : ("Bearer " ++ t).data.drop 6 = ' ' :: t.data := by
    rw [hdata, List.drop_left' (by rfl)]
  simp [JwtUtils.extractTokenFromHeader, hne, htake, hdrop, hcap]

/-- A header made only of whitespace is extracted as `null`: it cannot
match the Bearer pattern and its trim is empty. -/
theorem extractTokenFromHeader_allWs (h : String)
    (hw : ∀ c ∈ h.data, jsWs c = true) :
    JwtUtils.extractTokenFromHeader (some h) = none := by
  by_cases h0 : h = ""
  · rw [h0]; rfl
  · have hbear : ¬ (List.take 6 (List.map Char.toLower h.data) = ['b', 'e', 'a', 'r', 'e', 'r']) := by
      intro he
      obtain ⟨c0, cs0, hcs⟩ : ∃ c0 cs0, h.data = c0 :: cs0 := by
        cases hd : h.data with
        | nil => exact absurd (String.ext hd) h0
        | cons c cs => exact ⟨c, cs, rfl⟩
      rw [hcs] at he
      have hhead : (List.take 6 (List.map Char.toLower (c0 :: cs0))).head? =
          some (Char.toLower c0) := rfl
      rw [he] at hhead
      exact jsWs_toLower_ne_b (hw c0 (by rw [hcs]; simp)) (Option.some.inj hhead).symm
    have hd1 : h.data.dropWhile jsWs = [] := by
      rw [List.dropWhile_eq_nil_iff]
      exact fun c hc => hw c hc
    have htrim : jsTrim h = "" := by
      unfold jsTrim
      rw [hd1]
      rfl
    simp [JwtUtils.extractTokenFromHeader, h0, hbear, htrim]

/-! ### Claims -/

/-- Claim C7: credential extraction accepts a case-insensitive
`"Bearer <token>"` prefix and strips it, falls back to treating the whole
header value as the token when there is no Bearer prefix, and returns
absent for an undefined or empty header; in particular
`extractFromHeader("Bearer abc.def.ghi") = "abc.def.ghi"`,
`extractFromHeader(undefined) = absent`, `extractFromHeader("") = absent`,
and `extractFromHeader("abc.def.ghi") = "abc.def.ghi"`. -/
theorem claim_C7 :
    (∀ t : String, t ≠ "" → (∀ c ∈ t.data, jsWs c = false) →
      JwtUtils.extractTokenFromHeader (some ("Bearer " ++ t)) = some t) ∧
    JwtUtils.extractTokenFromHeader none = none ∧
    JwtUtils.extractTokenFromHeader (some "") = none ∧
    JwtUtils.extractTokenFromHeader (some "Bearer abc.def.ghi") = some "abc.def.ghi" ∧
    JwtUtils.extractTokenFromHeader (some "bEaReR abc.def.ghi") = some "abc.def.ghi" ∧
    JwtUtils.extractTokenFromHeader (some "abc.def.ghi") = some "abc.def.ghi" := by
  refine ⟨extractTokenFromHeader_bearer, rfl, rfl, ?_, ?_, ?_⟩ <;> decide

/-- Witness for C7: the Bearer-stripping clause instantiated at the
token `"abc.def.ghi"`. -/
theorem claim_C7_witness :
    JwtUtils.extractTokenFromHeader (some ("Bearer " ++ "abc.def.ghi")) = some "abc.def.ghi" :=
  claim_C7.1 "abc.def.ghi" (by decide) (by decide)

/-- Claim C10: a header consisting only of whitespace characters is
extracted as absent, so the gate rejects it as a missing credential
rather than treating the whitespace as a token under the no-prefix
fallback. -/
theorem claim_C10 (h : String) (hw : ∀ c ∈ h.data, jsWs c = true) :
    JwtUtils.extractTokenFromHeader (some h) = none ∧
    ∀ (cfg : AuthConfig) (now : Nat),
      JwtAuthGuard.canActivate cfg (some h) now =
        ⟨.error "No authorization token provided", false⟩ := by
  have hx := extractTokenFromHeader_allWs h hw
  exact ⟨hx, fun cfg now => by simp [JwtAuthGuard.canActivate, hx]⟩

/-- Witness for C10: the header `"   "`. -/
theorem claim_C10_witness :
    JwtUtils.extractTokenFromHeader (some "   ") = none ∧
    JwtAuthGuard.canActivate ⟨some "secret", none⟩ (some "   ") 0 =
      ⟨.error "No authorization token provided", false⟩ :=
  ⟨(claim_C10 "   " (by decide)).1,
   (claim_C10 "   " (by decide)).2 ⟨some "secret", none⟩ 0⟩

/-- Claim C8: `isValidFormat` is true exactly when the token splits into
exactly three non-empty dot-separated segments, false for an absent
token, with the listed concrete cases; and in the gate a pre-check
failure yields the malformed-credential rejection (message
`'Invalid token format'`) with `TokenCodec.decode` never invoked. -/
theorem claim_C8 :
    (∀ t : String, JwtUtils.isValidTokenFormat (some t) = true ↔
      ((splitOnC '.' t.data).length = 3 ∧ ∀ part ∈ splitOnC '.' t.data, part ≠ [])) ∧
    JwtUtils.isValidTokenFormat none = false ∧
    JwtUtils.isValidTokenFormat (some "a.b.c") = true ∧
    JwtUtils.isValidTokenFormat (some "a.b") = false ∧
    JwtUtils.isValidTokenFormat (some "a.b.c.d") = false ∧
    (∀ (cfg : AuthConfig) (hdr : Option String) (now : Nat) (t : String),
      JwtUtils.extractTokenFromHeader hdr = some t →
      JwtUtils.isValidTokenFormat (some t) = false →
      JwtAuthGuard.canActivate cfg hdr now = ⟨.error "Invalid token format", false⟩) := by
  refine ⟨?_, rfl, by decide, by decide, by decide, ?_⟩
  · intro t
    by_cases h0 : t = ""
    · subst h0
      decide
    · have hunf : JwtUtils.isValidTokenFormat (some t) =
          ((splitOnC '.' t.data).length == 3 &&
            (splitOnC '.' t.data).all (fun part => part.length > 0)) := by
        simp [JwtUtils.isValidTokenFormat, h0]
      rw [hunf, Bool.and_eq_true, beq_iff_eq, List.all_eq_true]
      constructor
      · rintro ⟨h1, h2⟩
        refine ⟨h1, fun part hp => ?_⟩
        have h3 := h2 part hp
        simp only [decide_eq_true_eq] at h3
        exact List.length_pos.mp h3
      · rintro ⟨h1, h2⟩
        refine ⟨h1, fun part hp => ?_⟩
        simp only [decide_eq_true_eq]
        exact List.length_pos.mpr (h2 part hp)
  · intro cfg hdr now t hext hfmt
    simp [JwtAuthGuard.canActivate, hext, hfmt]

/-- Witness for C8: the gate rejects the two-segment token `"a.b"`
carried in a Bearer header without invoking the codec. -/
theorem claim_C8_witness :
    JwtAuthGuard.canActivate ⟨some "secret", none⟩ (some "Bearer a.b") 0 =
      ⟨.error "Invalid token format", false⟩ :=
  claim_C8.2.2.2.2.2 ⟨some "secret", none⟩ (some "Bearer a.b") 0 "a.b" (by decide) (by decide)

/-- Claim C1 counterexample: the claim fails as stated at the non-empty,
untrimmed deviceId `" a"` — encode-then-decode succeeds but the decoded
deviceId is the untrimmed input `" a"`, not the trimmed `"a"`
(`JwtUtils.generateToken` never trims; trimming happens only in
`AuthService.generateToken` before the codec is called). -/
theorem claim_C1_counterexample :
    ¬ (∀ (d s : String) (ttl now : Nat), d ≠ "" → 0 < ttl →
        ∃ p, JwtUtils.verifyToken (JwtUtils.generateToken d s ttl now) s now = Except.ok p ∧
          p.deviceId = jsTrim d ∧ p.iat < p.exp) := by
  intro hcl
  obtain ⟨p, hp, hdev, -⟩ := hcl " a" "s" 5 0 (by decide) (by decide)
  have h1 : JwtUtils.verifyToken (JwtUtils.generateToken " a" "s" 5 0) "s" 0 =
      Except.ok (⟨" a", 0, 5⟩ : JwtPayload) := rfl
  rw [h1] at hp
  have h2 : (⟨" a", 0, 5⟩ : JwtPayload) = p := Except.ok.inj hp
  rw [← h2] at hdev
  exact absurd hdev (by decide)

/-- Claim C1 (amended): for every non-empty deviceId, every secret, and
the default (3600 s) or any positive ttl, decoding the token produced by
encode with the same secret succeeds, the decoded deviceId equals the
input deviceId as passed to encode (hence equals the trimmed input
exactly when the input is already trimmed), and the decoded exp is
strictly greater than the decoded iat. -/
theorem claim_C1 (d s : String) (ttl now : Nat) (hd : d ≠ "") (httl : 0 < ttl) :
    ∃ p, JwtUtils.verifyToken (JwtUtils.generateToken d s ttl now) s now = Except.ok p ∧
      p.deviceId = d ∧ p.iat = now ∧ p.exp = now + ttl ∧ p.iat < p.exp := by
  refine ⟨⟨d, now, now + ttl⟩, ?_, rfl, rfl, rfl, by show now < now + ttl; omega⟩
  have h1 : jwtVerify (jwtSign ⟨d, now, now + ttl⟩ s) s now =
      if now + ttl ≤ now then .error .tokenExpiredError else .ok ⟨d, now, now + ttl⟩ :=
    jwtVerify_jwtSign ⟨d, now, now + ttl⟩ s now
  rw [if_neg (by omega)] at h1
  unfold JwtUtils.verifyToken JwtUtils.generateToken
  rw [h1]

/-- Witness for C1 (amended) at deviceId `"device123"`, secret
`"secret"`, ttl 5, issued at time 0. -/
theorem claim_C1_witness :
    ∃ p, JwtUtils.verifyToken (JwtUtils.generateToken "device123" "secret" 5 0) "secret" 0 =
        Except.ok p ∧
      p.deviceId = "device123" ∧ p.iat = 0 ∧ p.exp = 0 + 5 ∧ p.iat < p.exp :=
  claim_C1 "device123" "secret" 5 0 (by decide) (by decide)

/-- Every error message produced by `JwtUtils.verifyToken` is one of the
three messages of its catch block. -/
theorem verifyToken_error_mem (t s : String) (now : Nat) (e : String)
    (h : JwtUtils.verifyToken t s now = .error e) :
    e = "Token has expired" ∨ e = "Invalid token" ∨ e = "Token verification failed" := by
  unfold JwtUtils.verifyToken at h
  cases hv : jwtVerify t s now with
  | ok q => rw [hv] at h; cases h
  | error e2 =>
    rw [hv] at h
    have h2 : JwtUtils.mapVerifyError e2 = e := Except.error.inj h
    cases e2
    · exact Or.inl h2.symm
    · exact Or.inr (Or.inl h2.symm)
    · exact Or.inr (Or.inr h2.symm)

/-- Claim C3: decode of a token signed with the same secret fails with
the expired-credential error exactly when now ≥ exp; a token that does
not split into three dot segments (invalid structure) and a token
verified under a different secret (invalid signature) fail with the
malformed-credential error and never return claims; and the catch block
maps any error outside the jwt hierarchy to the generic
verification-failure message. -/
theorem claim_C3 :
    (∀ (p : JwtPayload) (s : String) (now : Nat),
      JwtUtils.verifyToken (jwtSign p s) s now = .error "Token has expired" ↔ p.exp ≤ now) ∧
    (∀ (t s : String) (now : Nat), (splitOnC '.' t.data).length ≠ 3 →
      JwtUtils.verifyToken t s now = .error "Invalid token") ∧
    (∀ (p : JwtPayload) (s s2 : String) (now : Nat), s2 ≠ s →
      JwtUtils.verifyToken (jwtSign p s) s2 now = .error "Invalid token") ∧
    JwtUtils.mapVerifyError .otherError = "Token verification failed" := by
  refine ⟨?_, ?_, ?_, rfl⟩
  · intro p s now
    by_cases hexp : p.exp ≤ now
    · simp [JwtUtils.verifyToken, jwtVerify_jwtSign, hexp, JwtUtils.mapVerifyError]
    · simp [JwtUtils.verifyToken, jwtVerify_jwtSign, hexp]
  · intro t s now hlen
    unfold JwtUtils.verifyToken jwtVerify
    rcases hsp : splitOnC '.' t.data with _ | ⟨a, _ | ⟨b, _ | ⟨c, _ | ⟨d, rest⟩⟩⟩⟩
    · simp [JwtUtils.mapVerifyError]
    · simp [JwtUtils.mapVerifyError]
    · simp [JwtUtils.mapVerifyError]
    · rw [hsp] at hlen; simp at hlen
    · simp [JwtUtils.mapVerifyError]
  · intro p s s2 now hne
    unfold JwtUtils.verifyToken
    rw [jwtVerify_jwtSign_wrong p s s2 now hne]
    rfl

/-- Witness for C3: an expired token, a structurally invalid token, and a
wrong-secret token, each at concrete inputs. -/
theorem claim_C3_witness :
    JwtUtils.verifyToken (jwtSign ⟨"d", 0, 1⟩ "s") "s" 5 = .error "Token has expired" ∧
    JwtUtils.verifyToken "garbage" "s" 0 = .error "Invalid token" ∧
    JwtUtils.verifyToken (jwtSign ⟨"d", 0, 9⟩ "s") "x" 0 = .error "Invalid token" :=
  ⟨(claim_C3.1 ⟨"d", 0, 1⟩ "s" 5).mpr (by decide),
   claim_C3.2.1 "garbage" "s" 0 (by decide),
   claim_C3.2.2.1 ⟨"d", 0, 9⟩ "s" "x" 0 (by decide)⟩

/-- Claim C5: once extraction and the structural pre-check have passed,
an absent (or empty, hence falsy) process-wide signing secret makes the
gate fail with the configuration-error rejection, without invoking the
codec; and that failure kind is distinct from each of the per-request
unauthorized-class client errors (missing credential, malformed format,
expired, invalid token, verification failure). -/
theorem claim_C5 (cfg : AuthConfig) (hdr : Option String) (now : Nat) (t : String)
    (hext : JwtUtils.extractTokenFromHeader hdr = some t)
    (hfmt : JwtUtils.isValidTokenFormat (some t) = true)
    (hsec : cfg.jwtSecret = none ∨ cfg.jwtSecret = some "") :
    JwtAuthGuard.canActivate cfg hdr now = ⟨.error "JWT configuration error", false⟩ ∧
    ("JWT configuration error" : String) ≠ "No authorization token provided" ∧
    ("JWT configuration error" : String) ≠ "Invalid token format" ∧
    ("JWT configuration error" : String) ≠ "Token has expired" ∧
    ("JWT configuration error" : String) ≠ "Invalid token" ∧
    ("JWT configuration error" : String) ≠ "Token verification failed" := by
  refine ⟨?_, by decide, by decide, by decide, by decide, by decide⟩
  rcases hsec with hs | hs <;> simp [JwtAuthGuard.canActivate, hext, hfmt, hs]

/-- Witness for C5: unset secret, well-formed Bearer header. -/
theorem claim_C5_witness :
    JwtAuthGuard.canActivate ⟨none, none⟩ (some "Bearer a.b.c") 0 =
      ⟨.error "JWT configuration error", false⟩ :=
  (claim_C5 ⟨none, none⟩ (some "Bearer a.b.c") 0 "a.b.c" (by decide) (by decide)
    (Or.inl rfl)).1

/-- Claim C2: the gate lets a request through (`canActivate` returns
`true`, modelled as an `ok` outcome carrying the attached claims) exactly
when header extraction, the structural format check, secret presence, and
`TokenCodec.decode` verification all succeed; and every failure outcome
is one of the gate's unauthorized rejection messages, raised before any
handler logic — an `ok` outcome always carries the fully verified
payload, so no partially verified context is observable downstream. -/
theorem claim_C2 (cfg : AuthConfig) (hdr : Option String) (now : Nat) (p : JwtPayload) :
    ((JwtAuthGuard.canActivate cfg hdr now).outcome = .ok p ↔
      (∃ t s, JwtUtils.extractTokenFromHeader hdr = some t ∧
        JwtUtils.isValidTokenFormat (some t) = true ∧
        cfg.jwtSecret = some s ∧ s ≠ "" ∧
        JwtUtils.verifyToken t s now = .ok p)) ∧
    (∀ e, (JwtAuthGuard.canActivate cfg hdr now).outcome = .error e →
      e ∈ ["No authorization token provided", "Invalid token format",
        "JWT configuration error", "Token has expired", "Invalid token",
        "Token verification failed"]) := by
  cases hext : JwtUtils.extractTokenFromHeader hdr with
  | none =>
    refine ⟨?_, ?_⟩
    · simp [JwtAuthGuard.canActivate, hext]
    · intro e he
      simp only [JwtAuthGuard.canActivate, hext] at he
      have h2 : "No authorization token provided" = e := Except.error.inj he
      rw [← h2]
      simp
  | some tok =>
    by_cases hfmt : JwtUtils.isValidTokenFormat (some tok) = true
    · cases hsec : cfg.jwtSecret with
      | none =>
        refine ⟨?_, ?_⟩
        · simp [JwtAuthGuard.canActivate, hext, hfmt, hsec]
        · intro e he
          simp only [JwtAuthGuard.canActivate, hext, hfmt, if_true, hsec] at he
          have h2 : "JWT configuration error" = e := Except.error.inj he
          rw [← h2]
          simp
      | some s =>
        by_cases hs0 : s = ""
        · refine ⟨?_, ?_⟩
          · subst hs0
            simp [JwtAuthGuard.canActivate, hext, hfmt, hsec]
          · intro e he
            subst hs0
            simp only [JwtAuthGuard.canActivate, hext, hfmt, if_true, hsec] at he
            have h2 : "JWT configuration error" = e := Except.error.inj he
            rw [← h2]
            simp
        · cases hver : JwtUtils.verifyToken tok s now with
          | ok q =>
            refine ⟨?_, ?_⟩
            · constructor
              · intro h
                have hq : q = p := by
                  simpa [JwtAuthGuard.canActivate, hext, hfmt, hsec, hs0, hver] using h
                exact ⟨tok, s, rfl, hfmt, rfl, hs0, by rw [hver, hq]⟩
              · rintro ⟨t2, s2, ht2, -, hsec2, -, hv2⟩
                have htt : t2 = tok := (Option.some.inj ht2).symm
                have hss : s2 = s := (Option.some.inj hsec2).symm
                rw [htt, hss, hver] at hv2
                have hq : q = p := Except.ok.inj hv2
                simp [JwtAuthGuard.canActivate, hext, hfmt, hsec, hs0, hver, hq]
            · intro e he
              simp [JwtAuthGuard.canActivate, hext, hfmt, hsec, hs0, hver] at he
          | error msg =>
            refine ⟨?_, ?_⟩
            · constructor
              · intro h
                simp [JwtAuthGuard.canActivate, hext, hfmt, hsec, hs0, hver] at h
              · rintro ⟨t2, s2, ht2, -, hsec2, -, hv2⟩
                have htt : t2 = tok := (Option.some.inj ht2).symm
                have hss : s2 = s := (Option.some.inj hsec2).symm
                rw [htt, hss, hver] at hv2
                cases hv2
            · intro e he
              have h2 : msg = e := by
                simpa [JwtAuthGuard.canActivate, hext, hfmt, hsec, hs0, hver] using he
              rcases verifyToken_error_mem tok s now msg hver with h3 | h3 | h3 <;>
                rw [← h2, h3] <;> simp
    · refine ⟨?_, ?_⟩
      · simp [JwtAuthGuard.canActivate, hext, hfmt]
      · intro e he
        simp only [JwtAuthGuard.canActivate, hext, hfmt, if_false] at he
        have h2 : "Invalid token format" = e := Except.error.inj he
        rw [← h2]
        simp

/-- Witness for C2: a successful concrete run through the gate (valid
Bearer header, configured secret, unexpired token), and a rejected run's
message among the unauthorized messages. -/
theorem claim_C2_witness :
    (JwtAuthGuard.canActivate ⟨some "s", none⟩
        (some ("Bearer " ++ jwtSign ⟨"d", 0, 5⟩ "s")) 0).outcome = .ok ⟨"d", 0, 5⟩ ∧
    "No authorization token provided" ∈ ["No authorization token provided",
      "Invalid token format", "JWT configuration error", "Token has expired",
      "Invalid token", "Token verification failed"] :=
  ⟨(claim_C2 ⟨some "s", none⟩ (some ("Bearer " ++ jwtSign ⟨"d", 0, 5⟩ "s")) 0 ⟨"d", 0, 5⟩).1.mpr
      ⟨jwtSign ⟨"d", 0, 5⟩ "s", "s", by decide, by decide, rfl, by decide, rfl⟩,
   (claim_C2 ⟨some "s", none⟩ none 0 ⟨"d", 0, 5⟩).2 "No authorization token provided" rfl⟩

/-- Claim C4: issuance with an empty or whitespace-only deviceId fails
with the invalid-input error and invokes neither the codec nor the
registry; with a valid deviceId but an absent (or empty, hence falsy)
signing secret it fails with the configuration error before any registry
mutation; and in general every failure leaves the registry unchanged
while a success is exactly an encode-and-register of the trimmed id. -/
theorem claim_C4 (cfg : AuthConfig) (m : Registry) (d : String) (now : Nat) :
    (jsTrim d = "" →
      AuthService.generateToken cfg m d now =
        ⟨.error "Device ID is required", m, false, false⟩) ∧
    (jsTrim d ≠ "" → (cfg.jwtSecret = none ∨ cfg.jwtSecret = some "") →
      AuthService.generateToken cfg m d now =
        ⟨.error "JWT secret is not configured", m, false, false⟩) ∧
    (∀ e, (AuthService.generateToken cfg m d now).result = .error e →
      (AuthService.generateToken cfg m d now).registry = m ∧
      (AuthService.generateToken cfg m d now).codecInvoked = false ∧
      (AuthService.generateToken cfg m d now).registryInvoked = false) ∧
    (∀ resp, (AuthService.generateToken cfg m d now).result = .ok resp →
      ∃ s, cfg.jwtSecret = some s ∧ s ≠ "" ∧
        resp.token = JwtUtils.generateToken (jsTrim d) s (cfg.jwtExpiresIn.getD 3600) now ∧
        resp.deviceId = jsTrim d ∧
        (AuthService.generateToken cfg m d now).registry = mapSet m (jsTrim d) resp.token ∧
        mapGet (AuthService.generateToken cfg m d now).registry (jsTrim d) =
          some resp.token) := by
  by_cases htr : jsTrim d = ""
  · refine ⟨fun _ => by simp [AuthService.generateToken, htr], fun hne => absurd htr hne,
      ?_, ?_⟩
    · intro e he
      simp [AuthService.generateToken, htr]
    · intro resp hresp
      simp [AuthService.generateToken, htr] at hresp
  · cases hsec : cfg.jwtSecret with
    | none =>
      refine ⟨fun h0 => absurd h0 htr, fun _ _ => by simp [AuthService.generateToken, htr, hsec],
        ?_, ?_⟩
      · intro e he
        simp [AuthService.generateToken, htr, hsec]
      · intro resp hresp
        simp [AuthService.generateToken, htr, hsec] at hresp
    | some s =>
      by_cases hs0 : s = ""
      · subst hs0
        refine ⟨fun h0 => absurd h0 htr, fun _ _ => by simp [AuthService.generateToken, htr, hsec],
          ?_, ?_⟩
        · intro e he
          simp [AuthService.generateToken, htr, hsec]
        · intro resp hresp
          simp [AuthService.generateToken, htr, hsec] at hresp
      · refine ⟨fun h0 => absurd h0 htr, ?_, ?_, ?_⟩
        · intro _ hcase
          rcases hcase with h2 | h2
          · cases h2
          · exact absurd (Option.some.inj h2) hs0
        · intro e he
          simp [AuthService.generateToken, htr, hsec, hs0] at he
        · intro resp hresp
          have hresp2 : resp = ⟨JwtUtils.generateToken (jsTrim d) s (cfg.jwtExpiresIn.getD 3600) now,
              jsTrim d, cfg.jwtExpiresIn.getD 3600, now⟩ := by
            have h3 := hresp
            simp [AuthService.generateToken, htr, hsec, hs0] at h3
            rw [← h3]
          refine ⟨s, rfl, hs0, by rw [hresp2], by rw [hresp2], ?_, ?_⟩
          · rw [hresp2]
            simp [AuthService.generateToken, htr, hsec, hs0]
          · rw [hresp2]
            simp only [AuthService.generateToken, htr, hsec, hs0]
            simp [mapGet_mapSet_self]

/-- Witness for C4: whitespace-only id, missing secret, and a full
successful issuance, at concrete inputs. -/
theorem claim_C4_witness :
    AuthService.generateToken ⟨some "secret", none⟩ [] "   " 0 =
      ⟨.error "Device ID is required", [], false, false⟩ ∧
    AuthService.generateToken ⟨none, none⟩ [] "dev" 0 =
      ⟨.error "JWT secret is not configured", [], false, false⟩ ∧
    mapGet (AuthService.generateToken ⟨some "secret", some 5⟩ [] "dev" 0).registry "dev" =
      some (JwtUtils.generateToken "dev" "secret" 5 0) :=
  ⟨(claim_C4 ⟨some "secret", none⟩ [] "   " 0).1 (by decide),
   (claim_C4 ⟨none, none⟩ [] "dev" 0).2.1 (by decide) (Or.inl rfl),
   by
    obtain ⟨s, hs, hs0, htok, hdev, hreg, hget⟩ :=
      (claim_C4 ⟨some "secret", some 5⟩ [] "dev" 0).2.2.2
        ⟨JwtUtils.generateToken "dev" "secret" 5 0, "dev", 5, 0⟩ rfl
    exact hget⟩

/-- Anatomy of a successful issuance: the configured secret is present
and non-empty, the trimmed deviceId is non-empty, the response carries
the token encoded for the trimmed id, and the registry is the upsert of
that token under the trimmed id. -/
theorem generateToken_ok (cfg : AuthConfig) (m : Registry) (d : String) (now : Nat)
    (resp : TokenResponse)
    (hok : (AuthService.generateToken cfg m d now).result = .ok resp) :
    ∃ s, cfg.jwtSecret = some s ∧ s ≠ "" ∧ jsTrim d ≠ "" ∧
      resp = ⟨JwtUtils.generateToken (jsTrim d) s (cfg.jwtExpiresIn.getD 3600) now,
        jsTrim d, cfg.jwtExpiresIn.getD 3600, now⟩ ∧
      (AuthService.generateToken cfg m d now).registry = mapSet m (jsTrim d) resp.token := by
  by_cases htr : jsTrim d = ""
  · simp [AuthService.generateToken, htr] at hok
  · cases hsec : cfg.jwtSecret with
    | none => simp [AuthService.generateToken, htr, hsec] at hok
    | some s =>
      by_cases hs0 : s = ""
      · subst hs0
        simp [AuthService.generateToken, htr, hsec] at hok
      · have hresp : resp = ⟨JwtUtils.generateToken (jsTrim d) s (cfg.jwtExpiresIn.getD 3600) now,
            jsTrim d, cfg.jwtExpiresIn.getD 3600, now⟩ := by
          have h3 := hok
          simp [AuthService.generateToken, htr, hsec, hs0] at h3
          rw [← h3]
        refine ⟨s, rfl, hs0, htr, hresp, ?_⟩
        rw [hresp]
        simp [AuthService.generateToken, htr, hsec, hs0]

/-- Claim C9: issuance registers the token under the trimmed deviceId,
while lookup/revoke/stored-validation use the given deviceId verbatim:
after a successful issuance, lookup of the trimmed id returns the new
token (and the stored-token check accepts it), while lookup of the
original untrimmed id is unchanged (absent unless that exact string was
separately registered), and revoking the untrimmed id leaves the trimmed
entry in place. -/
theorem claim_C9 (cfg : AuthConfig) (m : Registry) (d : String) (now : Nat)
    (resp : TokenResponse)
    (hok : (AuthService.generateToken cfg m d now).result = .ok resp) :
    AuthService.getStoredToken (AuthService.generateToken cfg m d now).registry (jsTrim d) =
      some resp.token ∧
    AuthService.isValidStoredToken (AuthService.generateToken cfg m d now).registry (jsTrim d)
      resp.token = true ∧
    (jsTrim d ≠ d →
      AuthService.getStoredToken (AuthService.generateToken cfg m d now).registry d =
        AuthService.getStoredToken m d) ∧
    (jsTrim d ≠ d →
      AuthService.getStoredToken
        (AuthService.revokeToken (AuthService.generateToken cfg m d now).registry d)
        (jsTrim d) = some resp.token) := by
  obtain ⟨s, hsec, hs0, htr, hresp, hreg⟩ := generateToken_ok cfg m d now resp hok
  have htok : resp.token ≠ "" := by
    rw [hresp]
    exact jwtSign_ne_empty _ _
  refine ⟨?_, ?_, ?_, ?_⟩
  · rw [hreg]
    unfold AuthService.getStoredToken
    rw [mapGet_mapSet_self]
    simp [htok]
  · rw [hreg]
    unfold AuthService.isValidStoredToken
    rw [mapGet_mapSet_self]
    simp
  · intro hne
    rw [hreg]
    unfold AuthService.getStoredToken
    rw [mapGet_mapSet_ne m (jsTrim d) resp.token d (Ne.symm hne)]
  · intro hne
    rw [hreg]
    unfold AuthService.getStoredToken AuthService.revokeToken
    rw [mapGet_mapDelete_ne _ d (jsTrim d) hne, mapGet_mapSet_self]
    simp [htok]

/-- Witness for C9: issuing for `"  device123  "` registers under
`"device123"`; the untrimmed key is untouched. -/
theorem claim_C9_witness :
    AuthService.getStoredToken
        (AuthService.generateToken ⟨some "secret", some 7⟩ [] "  device123  " 0).registry
        "device123" =
      some (JwtUtils.generateToken "device123" "secret" 7 0) ∧
    AuthService.getStoredToken
        (AuthService.generateToken ⟨some "secret", some 7⟩ [] "  device123  " 0).registry
        "  device123  " =
      AuthService.getStoredToken [] "  device123  " := by
  have h := claim_C9 ⟨some "secret", some 7⟩ [] "  device123  " 0
    ⟨JwtUtils.generateToken "device123" "secret" 7 0, "device123", 7, 0⟩ rfl
  exact ⟨h.1, h.2.2.1 (by decide)⟩

/-- Claim C6: re-issuing a token changes at most the registry entry of
the (trimmed) device being issued for, and a previously issued,
not-yet-expired token still passes decode verification afterwards —
decode takes only the token, the secret and the time, so its outcome is
unchanged by any registry mutation. -/
theorem claim_C6 (cfg : AuthConfig) (m : Registry) (d : String) (now : Nat) :
    (∀ k, k ≠ jsTrim d →
      mapGet (AuthService.generateToken cfg m d now).registry k = mapGet m k) ∧
    (∀ (d0 s : String) (ttl t0 tm : Nat), tm < t0 + ttl →
      JwtUtils.verifyToken (JwtUtils.generateToken d0 s ttl t0) s tm =
        Except.ok ⟨d0, t0, t0 + ttl⟩) := by
  constructor
  · intro k hk
    by_cases htr : jsTrim d = ""
    · simp [AuthService.generateToken, htr]
    · cases hsec : cfg.jwtSecret with
      | none => simp [AuthService.generateToken, htr, hsec]
      | some s =>
        by_cases hs0 : s = ""
        · subst hs0
          simp [AuthService.generateToken, htr, hsec]
        · have hreg : (AuthService.generateToken cfg m d now).registry =
              mapSet m (jsTrim d)
                (JwtUtils.generateToken (jsTrim d) s (cfg.jwtExpiresIn.getD 3600) now) := by
            simp [AuthService.generateToken, htr, hsec, hs0]
          rw [hreg]
          exact mapGet_mapSet_ne m (jsTrim d) _ k hk
  · intro d0 s ttl t0 tm htm
    have h1 : jwtVerify (jwtSign ⟨d0, t0, t0 + ttl⟩ s) s tm =
        if t0 + ttl ≤ tm then .error .tokenExpiredError else .ok ⟨d0, t0, t0 + ttl⟩ :=
      jwtVerify_jwtSign ⟨d0, t0, t0 + ttl⟩ s tm
    rw [if_neg (by omega)] at h1
    unfold JwtUtils.verifyToken JwtUtils.generateToken
    rw [h1]

/-- Witness for C6: re-issuing for `"device123"` over an existing entry
leaves the other key alone, and the old (first-issued) token still
verifies at a later, pre-expiry time. -/
theorem claim_C6_witness :
    mapGet (AuthService.generateToken ⟨some "secret", some 9⟩
        [("device123", "old"), ("other", "tok")] "device123" 4).registry "other" =
      mapGet [("device123", "old"), ("other", "tok")] "other" ∧
    JwtUtils.verifyToken (JwtUtils.generateToken "device123" "secret" 9 0) "secret" 4 =
      Except.ok ⟨"device123", 0, 0 + 9⟩ :=
  ⟨(claim_C6 ⟨some "secret", some 9⟩ [("device123", "old"), ("other", "tok")] "device123" 4).1
      "other" (by decide),
   (claim_C6 ⟨some "secret", some 9⟩ [("device123", "old"), ("other", "tok")] "device123" 4).2
      "device123" "secret" 9 0 4 (by decide)⟩
